import Mathlib

/-!
Verification of the zdash incremental data-synchronization and
revenue-computation engine.

The definitions below are a shallow embedding of the Python source:
`data_management.py` (DataManager: merge_new_data, load_or_fetch_data,
load_financials_data, process_job_titles), `odoo.py`
(fetch_and_process_data) and `callbacks/project.py` /
`callbacks/financials.py` (calculate_project_revenue, extract_job_title,
calculate_all_financials).

Modelling conventions:
* a pandas cell value is a `Value`: a scalar (`Atom`) or a flat list of
  scalars, which is the shape occurring in this data set (Odoo composite
  ids are flat `[id, label]` pairs);
* a DataFrame is a column-name list plus a list of rows, each row an
  association list from column name to `Value`; reading a cell of a
  column the row does not carry yields `Atom.null` (pandas NaN);
* instants are integers (seconds for sync timestamps, `yyyymmdd`
  integers for timesheet dates); pandas datetime parsing is modelled by
  keeping only integer-valued date cells (`errors = coerce` plus
  `dropna`);
* numeric values are rationals, so the `/ 8` hour-to-day conversion is
  exact;
* Python `str()` of a list and `ast.literal_eval` are modelled by
  `pyReprList` and `literalEval`, which cover the literal shapes
  occurring in this data (integers, quoted strings, flat lists);
* fallible code returns `Except String`, the error string naming the
  Python exception.
-/

namespace ZDash

set_option maxRecDepth 4096

/-! ## Definitions -/

/-- Exact rational numbers with a fully reduced, positive denominator.
Python float arithmetic on the modelled data (sums, products, division
by 8) is exact, so exact rationals model it; every operation below is
structurally recursive so that concrete runs reduce inside the kernel. -/
structure Q where
  num : Int
  den : Nat
deriving DecidableEq

/-- Build the canonical representative of `n / d`. -/
def Q.norm (n : Int) (d : Nat) : Q :=
  if d = 0 then Q.mk 0 1
  else
    let g := Nat.gcd n.natAbs d
    Q.mk (if n < 0 then -(Int.ofNat (n.natAbs / g)) else Int.ofNat (n.natAbs / g)) (d / g)

instance : OfNat Q n := ⟨Q.mk (Int.ofNat n) 1⟩

instance : Zero Q := ⟨Q.mk 0 1⟩

instance : Add Q := ⟨fun a b => Q.norm (a.num * b.den + b.num * a.den) (a.den * b.den)⟩

instance : Mul Q := ⟨fun a b => Q.norm (a.num * b.num) (a.den * b.den)⟩

instance : Neg Q := ⟨fun a => Q.mk (-a.num) a.den⟩

instance : Div Q :=
  ⟨fun a b =>
    if b.num = 0 then Q.mk 0 1
    else if b.num < 0 then Q.norm (-(a.num * b.den)) (a.den * b.num.natAbs)
    else Q.norm (a.num * b.den) (a.den * b.num.natAbs)⟩

/-- A scalar cell value (Python `None`, `int`, `float`, `str`). -/
inductive Atom where
| null : Atom
| int : Int → Atom
| rat : Q → Atom
| str : String → Atom
deriving DecidableEq

/-- A cell value: a scalar or a flat list of scalars (the composite
`[id, label]` shape Odoo uses). -/
inductive Value where
| atom : Atom → Value
| vlist : List Atom → Value
deriving DecidableEq

/-- Shorthand for a string-valued cell. -/
def strV (s : String) : Value := Value.atom (Atom.str s)

/-- A DataFrame row: association list from column name to value. -/
abbrev Row := List (String × Value)

/-- A DataFrame: its column names and its rows. -/
structure DF where
  cols : List String
  rows : List Row
deriving DecidableEq

/-- Reading one cell of a row; a column the row does not carry reads as
NaN (`Atom.null`), matching a reindexed pandas frame. -/
def getCell (r : Row) (c : String) : Value :=
  match r.lookup c with
  | some v => v
  | none => Value.atom Atom.null

/-- Python `str()` of a scalar, as used when `merge_new_data` stringifies
list-valued cells (string scalars keep Python quote style; the rational
case stands in for Python float repr and is not exercised by the data). -/
def reprAtom : Atom → String
| Atom.null => "None"
| Atom.int i => toString i
| Atom.rat q => toString q.num ++ "/" ++ toString q.den
| Atom.str s => "'" ++ s ++ "'"

/-- Python `str()` of a list value, e.g. `[1, 'Engineer']`. -/
def pyReprList (l : List Atom) : String :=
  "[" ++ String.intercalate ", " (l.map reprAtom) ++ "]"

/-- `merge_new_data`'s normalization step: object columns have their
list values replaced by `str(x)`; scalars are unchanged. -/
def normValue : Value → Value
| Value.vlist l => Value.atom (Atom.str (pyReprList l))
| v => v

/-- Normalize every cell of a row (`df[col].apply(lambda x: str(x) if
isinstance(x, list) else x)` over all columns). -/
def normRow (r : Row) : Row := r.map (fun kv => (kv.fst, normValue kv.snd))

/-- `list(set(old.columns) | set(new.columns))`; the set order is
modelled as left-to-right first occurrence. -/
def colUnion (a b : List String) : List String :=
  a ++ b.filter (fun c => ! a.contains c)

/-- The rows of a frame after the normalization pass. -/
def prepRows (df : DF) : List Row := df.rows.map normRow

/-- A column survives `dropna(axis=1, how='all')` iff some row holds a
non-null value in it. -/
def colKept (rows : List Row) (c : String) : Bool :=
  rows.any (fun r => ! (getCell r c == Value.atom Atom.null))

/-- The columns of one frame after reindexing to the union of the two
column sets and dropping all-null columns. -/
def keptCols (df : DF) (allCols : List String) : List String :=
  allCols.filter (fun c => colKept (prepRows df) c)

/-- The column set of the merged frame: the concatenation reunites the
columns kept on either side. -/
def mergedCols (old new : DF) : List String :=
  keptCols old (colUnion old.cols new.cols) ++
    (keptCols new (colUnion old.cols new.cols)).filter
      (fun c => ! (keptCols old (colUnion old.cols new.cols)).contains c)

/-- Reindex a row to a fixed column list (missing columns become null). -/
def reRow (cols : List String) (r : Row) : Row :=
  cols.map (fun c => (c, getCell r c))

/-- The old frame's rows as they enter the concatenation: normalized and
reindexed to the merged column set. -/
def prepOld (old new : DF) : List Row :=
  (prepRows old).map (reRow (mergedCols old new))

/-- The delta frame's rows as they enter the concatenation. -/
def prepNew (old new : DF) : List Row :=
  (prepRows new).map (reRow (mergedCols old new))

/-- `'id' in old_df.columns and 'id' in new_df.columns` after the
reindex/dropna steps. -/
def idBranch (old new : DF) : Bool :=
  (keptCols old (colUnion old.cols new.cols)).contains "id" &&
    (keptCols new (colUnion old.cols new.cols)).contains "id"

/-- `drop_duplicates(subset=key, keep='last')`: a row is kept iff no
later row has the same key; kept rows stay in order. -/
def keepLastBy (key : Row → Value) : List Row → List Row
| [] => []
| r :: rest =>
    if rest.any (fun r2 => key r2 == key r) then keepLastBy key rest
    else r :: keepLastBy key rest

/-- Helper for full-row `drop_duplicates()` (keep='first'): `seen`
accumulates rows already emitted. -/
def dropDupFirstAux : List Row → List Row → List Row
| _, [] => []
| seen, r :: rest =>
    if r ∈ seen then dropDupFirstAux seen rest
    else r :: dropDupFirstAux (r :: seen) rest

/-- Full-row `drop_duplicates()` with the default keep='first'. -/
def dropDupFirst (l : List Row) : List Row := dropDupFirstAux [] l

/-- The concatenated, normalized, reindexed rows entering deduplication. -/
def mergeRowsInput (old new : DF) : List Row := prepOld old new ++ prepNew old new

/-- One iteration of `DataManager.merge_new_data` (lines 104-125):
normalize list cells, reindex both frames to the union of columns, drop
all-null columns, concatenate old then delta, and deduplicate — by `id`
keeping the last (delta) record when both sides expose `id`, by full-row
equality otherwise. -/
def mergeCollection (old new : DF) : DF :=
  if idBranch old new then
    DF.mk (mergedCols old new)
      (keepLastBy (fun r => getCell r "id") (mergeRowsInput old new))
  else
    DF.mk (mergedCols old new) (dropDupFirst (mergeRowsInput old new))

/-- `merge_new_data` over the zipped lists of cached and fetched frames. -/
def mergeNewData (oldData newData : List DF) : List DF :=
  List.zipWith mergeCollection oldData newData

/-- Sample cached collection for the merge witness. -/
def mOld : DF :=
  DF.mk [ "id", "name" ]
    [ [ ("id", Value.atom (Atom.int 1)), ("name", strV "a") ],
      [ ("id", Value.atom (Atom.int 2)), ("name", strV "b") ] ]

/-- Sample delta collection for the merge witness: id 2 reappears with
new content. -/
def mNew : DF :=
  DF.mk [ "id", "name" ]
    [ [ ("id", Value.atom (Atom.int 2)), ("name", strV "B") ] ]

/-- A Python fetch function as seen by its caller: its declared arity
and its behaviour (each returned element models one of the six frames of
`odoo.fetch_and_process_data`, `none` standing for a `None` entry). -/
structure FetchFn where
  arity : Nat
  run : List Int → List (Option DF)

/-- Calling a Python function: passing a number of arguments different
from the declared arity raises `TypeError` before the body runs. -/
def callFetch (f : FetchFn) (args : List Int) : Except String (List (Option DF)) :=
  if args.length = f.arity then Except.ok (f.run args) else Except.error "TypeError"

/-- `odoo.fetch_and_process_data` (odoo.py line 40): declared with zero
parameters; its body (remote I/O and post-processing) is abstracted as
the processed result `remote`, a six-element list that is all `none`
when the internal try/except catches a failure. -/
def fetchAndProcessData (remote : List (Option DF)) : FetchFn :=
  FetchFn.mk 0 (fun _ => remote)

/-- The durable state behind `load_or_fetch_data`: the pickled snapshot
(`odoo_data.pkl`) and the last-update instant (`last_update.json`). -/
structure CacheState where
  cachedData : Option (List DF)
  lastUpdate : Option Int
deriving DecidableEq

/-- Outcome of `load_or_fetch_data`: the returned frames and timestamp,
the cache state afterwards, and how many remote fetches ran. -/
structure LoadResult where
  data : List DF
  asOf : Int
  state : CacheState
  fetchCalls : Nat
deriving DecidableEq

/-- An empty DataFrame. -/
def emptyDF : DF := DF.mk [] []

/-- `timedelta(days=1)` in seconds: the staleness threshold. -/
def oneDaySecs : Int := 86400

/-- `timedelta(hours=3)` in seconds: the incremental-fetch overlap. -/
def threeHoursSecs : Int := 10800

/-- `new_data and all(df is not None for df in new_data)`. -/
def fetchOk (nd : List (Option DF)) : Bool :=
  (! nd.isEmpty) && nd.all Option.isSome

/-- `DataManager.load_or_fetch_data` (data_management.py lines 137-166).
With no cached snapshot or no last-update time it performs a full fetch,
falling back to five empty frames on failure; with a cache it serves it
directly while fresh, and otherwise attempts an incremental fetch with a
three-hour lookback, keeping the cache and timestamp on fetch failure. -/
def loadOrFetchData (f : FetchFn) (st : CacheState) (now : Int) (force : Bool) :
    Except String LoadResult :=
  match st.cachedData, st.lastUpdate with
  | some cached, some lastUpdate =>
      if force || decide (now - lastUpdate > oneDaySecs) then
        match callFetch f [lastUpdate - threeHoursSecs] with
        | Except.error e => Except.error e
        | Except.ok nd =>
            if fetchOk nd then
              let merged := mergeNewData cached (nd.filterMap id)
              Except.ok (LoadResult.mk merged now (CacheState.mk (some merged) (some now)) 1)
            else
              Except.ok (LoadResult.mk cached lastUpdate st 1)
      else
        Except.ok (LoadResult.mk cached lastUpdate st 0)
  | _, _ =>
      match callFetch f [] with
      | Except.error e => Except.error e
      | Except.ok nd =>
          if fetchOk nd then
            let dfs := nd.filterMap id
            Except.ok (LoadResult.mk dfs now (CacheState.mk (some dfs) (some now)) 1)
          else
            Except.ok (LoadResult.mk (List.replicate 5 emptyDF) now st 1)

/-- Sample state for the C2 witness. -/
def freshState : CacheState := CacheState.mk (some [ emptyDF ]) (some 100)

/-- Sample fetch function (never invoked in the fresh-cache path). -/
def sampleFetch : FetchFn := FetchFn.mk 0 (fun _ => [])

/-- Drop leading spaces. -/
def skipSp (cs : List Char) : List Char := cs.dropWhile (fun c => c == ' ')

/-- Digits to a natural number. -/
def digitsToNat (cs : List Char) : Nat :=
  cs.foldl (fun n c => n * 10 + (c.toNat - 48)) 0

/-- Parse an integer literal, returning the remaining input. -/
def parseIntLit : List Char → Option (Int × List Char)
| '-' :: rest =>
    let ds := rest.takeWhile Char.isDigit
    if ds.isEmpty then none
    else some (-(digitsToNat ds : Int), rest.dropWhile Char.isDigit)
| cs =>
    let ds := cs.takeWhile Char.isDigit
    if ds.isEmpty then none
    else some ((digitsToNat ds : Int), cs.dropWhile Char.isDigit)

/-- Parse a single-quoted string literal (no escape handling; none occur
in this data). -/
def parseStrLit : List Char → Option (String × List Char)
| '\'' :: rest =>
    let content := rest.takeWhile (fun c => ! (c == '\''))
    match rest.dropWhile (fun c => ! (c == '\'')) with
    | '\'' :: r2 => some (String.mk content, r2)
    | _ => none
| _ => none

/-- Parse one scalar literal: a quoted string or an integer. -/
def parseAtomLit (cs : List Char) : Option (Atom × List Char) :=
  match parseStrLit cs with
  | some (s, r) => some (Atom.str s, r)
  | none =>
      match parseIntLit cs with
      | some (i, r) => some (Atom.int i, r)
      | none => none

/-- Parse the comma-separated elements after `[`, up to the closing
`]`; fuel-bounded recursion over the input length. -/
def parseAtomsAux : Nat → List Char → Option (List Atom × List Char)
| 0, _ => none
| fuel + 1, cs =>
    match parseAtomLit (skipSp cs) with
    | none => none
    | some (a, rest) =>
        match skipSp rest with
        | ']' :: r2 => some ([a], r2)
        | ',' :: r2 =>
            match parseAtomsAux fuel r2 with
            | some (as, r3) => some (a :: as, r3)
            | none => none
        | _ => none

/-- `ast.literal_eval`, for the literal shapes occurring in this data:
integers, single-quoted strings and flat lists thereof. `none` models a
ValueError/SyntaxError. -/
def literalEval (s : String) : Option Value :=
  match skipSp s.toList with
  | '[' :: rest =>
      match skipSp rest with
      | ']' :: r2 => if (skipSp r2).isEmpty then some (Value.vlist []) else none
      | rest2 =>
          match parseAtomsAux (s.length + 1) rest2 with
          | some (as, r3) => if (skipSp r3).isEmpty then some (Value.vlist as) else none
          | none => none
  | cs =>
      match parseAtomLit cs with
      | some (a, r) => if (skipSp r).isEmpty then some (Value.atom a) else none
      | none => none

/-- `extract_job_title` (callbacks/project.py lines 277-288): a
string-valued `job_id` field is tried FIRST — decoded with
`ast.literal_eval`, taking element 1 of a composite of length > 1 and
`'Unknown'` on short composites or decode failure (Python indexing of a
decoded string yields its second character; of a decoded int it raises
an uncaught TypeError). Only when no string-valued `job_id` exists is a
direct `job_title` field used, and `'Unknown'` when neither applies. -/
def decodeJobIdStr (s : String) : Except String Value :=
  match literalEval s with
  | none => Except.ok (strV "Unknown")
  | some (Value.vlist l) =>
      match l with
      | _ :: b :: _ => Except.ok (Value.atom b)
      | _ => Except.ok (strV "Unknown")
  | some (Value.atom (Atom.str t)) =>
      match t.toList with
      | _ :: c :: _ => Except.ok (strV (String.mk [c]))
      | _ => Except.ok (strV "Unknown")
  | some (Value.atom _) => Except.error "TypeError"

/-- The branch structure of `extract_job_title`: a string-valued
`job_id` is decoded; anything else falls back to `job_title`, then to
`'Unknown'`. -/
def extractJobTitle (e : Row) : Except String Value :=
  match e.lookup "job_id" with
  | some (Value.atom (Atom.str s)) => decodeJobIdStr s
  | _ =>
      match e.lookup "job_title" with
      | some v => Except.ok v
      | none => Except.ok (strV "Unknown")

/-- Split a character list on a separator character. -/
def splitOnChar (sep : Char) : List Char → List (List Char)
| [] => [[]]
| a :: rest =>
    match splitOnChar sep rest with
    | [] => [[]]
    | cur :: others =>
        if a == sep then [] :: cur :: others else (a :: cur) :: others

/-- Parse an unsigned decimal numeral (`"800"`, `"12.5"`, `".5"`). -/
def parseUnsignedDec (s : String) : Option Q :=
  match splitOnChar '.' s.toList with
  | [a] =>
      if ! a.isEmpty && a.all Char.isDigit
      then some (Q.mk (Int.ofNat (digitsToNat a)) 1) else none
  | [a, b] =>
      if (! a.isEmpty || ! b.isEmpty) && a.all Char.isDigit && b.all Char.isDigit
      then some (Q.norm (Int.ofNat (digitsToNat a * 10 ^ b.length + digitsToNat b))
        (10 ^ b.length))
      else none
  | _ => none

/-- Python `float()` on a string, for plain decimal numerals. -/
def parsePyFloat (s : String) : Option Q :=
  match s.toList with
  | '-' :: rest => (parseUnsignedDec (String.mk rest)).map (fun q => -q)
  | _ => parseUnsignedDec s

/-- `float(job_cost_data.get('revenue') or 0)` with the ValueError
fallback: an empty string is falsy and becomes 0; an unparsable string
is caught and becomes 0. -/
def rateOfString (s : String) : Q :=
  if s = "" then 0 else (parsePyFloat s).getD 0

/-- One `job_costs.json` entry: decimal-as-string cost and revenue. -/
structure JobRate where
  cost : String
  revenue : String
deriving DecidableEq

/-- The job-rate table, keyed by job title (insertion-ordered, like a
Python dict). -/
abbrev JobCosts := List (Value × JobRate)

/-- `job_costs.get(job_title, dict())` followed by `.get('revenue')`:
a missing title or entry contributes daily rate 0. -/
def dailyRevenueRate (jc : JobCosts) (t : Value) : Q :=
  match jc.lookup t with
  | none => 0
  | some r => rateOfString r.revenue

/-- Numeric reading of a cell (`unit_amount`); the modelled frames hold
numbers in these cells. -/
def toRat : Value → Q
| Value.atom (Atom.int i) => Q.mk i 1
| Value.atom (Atom.rat q) => q
| _ => 0

/-- `employees_data[employees_data['name'] == row['employee_name']]` is
nonempty. -/
def employeeMatched (employees : DF) (row : Row) : Bool :=
  employees.rows.any (fun e => getCell e "name" == getCell row "employee_name")

/-- One iteration of `calculate_project_revenue`'s loop: match the
employee by name — `continue` when the filtered frame is empty — extract
the job title, read the daily revenue rate and add
`unit_amount / 8 * rate` (the hours-to-days conversion). -/
def revStep (employees : DF) (jobCosts : JobCosts) (acc : Q) (row : Row) :
    Except String Q :=
  match employees.rows.filter (fun e => getCell e "name" == getCell row "employee_name") with
  | [] => Except.ok acc
  | e :: _ =>
      match extractJobTitle e with
      | Except.error err => Except.error err
      | Except.ok title =>
          Except.ok (acc + toRat (getCell row "unit_amount") / 8 * dailyRevenueRate jobCosts title)

/-- `calculate_project_revenue` (callbacks/project.py lines 77-104).
The frames carry the accessed columns. -/
def calculateProjectRevenue (timesheet : List Row) (employees : DF)
    (jobCosts : JobCosts) : Except String Q :=
  timesheet.foldlM (revStep employees jobCosts) 0

/-- Does `pat` occur at the head of `l`? -/
def charsStartWith : List Char → List Char → Bool
| [], _ => true
| _ :: _, [] => false
| a :: as, b :: bs => a == b && charsStartWith as bs

/-- Does `pat` occur anywhere in `l` (Python `pat in s`)? -/
def containsChars (pat : List Char) : List Char → Bool
| [] => pat.isEmpty
| l@(_ :: rest) => charsStartWith pat l || containsChars pat rest

/-- Python `str.lower()` over the column name. -/
def lowerChars (cs : List Char) : List Char := cs.map Char.toLower

/-- `next((col for col in df_timesheet.columns if 'date' in col.lower()),
None)`: the first column whose lowercased name contains `date`. -/
def findDateCol (ts : DF) : Option String :=
  ts.cols.find? (fun c => containsChars [ 'd', 'a', 't', 'e' ] (lowerChars c.toList))

/-- The date of a row under `pd.to_datetime(..., errors='coerce')`:
integer-valued cells parse, anything else is NaT. -/
def dateInt (r : Row) (dcol : String) : Option Int :=
  match getCell r dcol with
  | Value.atom (Atom.int d) => some d
  | _ => none

/-- The timesheet slice for one project: `project_name` equals the
project's name and the (parsed) date lies in `[start_date, end_date]`;
rows whose date failed to parse were dropped by `dropna`. -/
def selectProjectLines (tsRows : List Row) (dcol : String) (pname : Value)
    (sd ed : Int) : List Row :=
  tsRows.filter (fun r =>
    (getCell r "project_name" == pname) &&
    (match dateInt r dcol with
     | some d => decide (sd ≤ d) && decide (d ≤ ed)
     | none => false))

/-- Helper for `list(set(xs))`: deduplicate keeping first occurrences
(`seen` accumulates emitted values). -/
def firstDedupAux : List Value → List Value → List Value
| _, [] => []
| seen, v :: t =>
    if v ∈ seen then firstDedupAux seen t
    else v :: firstDedupAux (v :: seen) t

/-- `list(set(xs))`; Python set iteration order is modelled as
first-occurrence order. -/
def firstDedup (l : List Value) : List Value := firstDedupAux [] l

/-- Insert into a sorted list of dates. -/
def insertSorted (d : Int) : List Int → List Int
| [] => [d]
| x :: t => if d ≤ x then d :: x :: t else x :: insertSorted d t

/-- The distinct dates of the selected lines, ascending — the group keys
of `groupby(date_column)` (which sorts its keys). -/
def sortedDates (lines : List Row) (dcol : String) : List Int :=
  (lines.filterMap (fun r => dateInt r dcol)).foldl
    (fun acc d => if d ∈ acc then acc else insertSorted d acc) []

/-- One record of `daily_data`: the groupby aggregation keeps the date,
the summed hours and the deduplicated contributor and task lists — it
has NO revenue field. -/
structure DailyRec where
  date : Int
  unit_amount : Q
  employee_name : List Value
  task_id : List Value
deriving DecidableEq

/-- The per-project financials entry. -/
structure ProjFin where
  total_revenue : Q
  total_hours : Q
  daily_data : List DailyRec
deriving DecidableEq

/-- The financials mapping, keyed by project name. -/
abbrev FinData := List (Value × ProjFin)

/-- `project_timesheet['unit_amount'].sum()` over the selected lines —
every line counts, matched employee or not. -/
def sumUnits (lines : List Row) : Q :=
  (lines.map (fun r => toRat (getCell r "unit_amount"))).sum

/-- `groupby(date_column).agg(...).reset_index().to_dict('records')`. -/
def buildDaily (lines : List Row) (dcol : String) : List DailyRec :=
  (sortedDates lines dcol).map (fun d =>
    let grp := lines.filter (fun r => dateInt r dcol == some d)
    DailyRec.mk d
      ((grp.map (fun r => toRat (getCell r "unit_amount"))).sum)
      (firstDedup (grp.map (fun r => getCell r "employee_name")))
      (firstDedup (grp.map (fun r => getCell r "task_id"))))

/-- Python dict assignment `financials_data[project_name] = ...`:
overwrite in place when the key exists, append otherwise. -/
def dictInsert (m : FinData) (k : Value) (v : ProjFin) : FinData :=
  if m.any (fun kv => kv.fst == k) then
    m.map (fun kv => if kv.fst == k then (k, v) else kv)
  else m ++ [(k, v)]

/-- The body of the per-project loop of `calculate_all_financials`
(callbacks/financials.py lines 149-175). Column accesses raise KeyError
when the column is missing, in source order: the project's `name`, the
timesheet mask's `project_name`, then — only when the slice is nonempty
— the revenue computation, the `unit_amount` sum and the groupby
aggregation over `unit_amount`, `employee_name` and `task_id`. -/
def projectStep (pcols : List String) (ts : DF) (dcol : String) (employees : DF)
    (jobCosts : JobCosts) (sd ed : Int) (acc : FinData) (proj : Row) :
    Except String FinData :=
  if ! pcols.contains "name" then Except.error "KeyError: name"
  else if ! ts.cols.contains "project_name" then Except.error "KeyError: project_name"
  else
    let pname := getCell proj "name"
    let lines := selectProjectLines ts.rows dcol pname sd ed
    if lines.isEmpty then Except.ok acc
    else
      match calculateProjectRevenue lines employees jobCosts with
      | Except.error e => Except.error e
      | Except.ok rev =>
          if ! ts.cols.contains "unit_amount" then Except.error "KeyError: unit_amount"
          else if ! ts.cols.contains "employee_name" then Except.error "KeyError: employee_name"
          else if ! ts.cols.contains "task_id" then Except.error "KeyError: task_id"
          else Except.ok (dictInsert acc pname
            (ProjFin.mk rev (sumUnits lines) (buildDaily lines dcol)))

/-- `calculate_all_financials` (callbacks/financials.py lines 128-177):
when no timesheet column name contains `date`, it logs and returns the
empty mapping; otherwise it loops over the portfolio, skipping projects
with no selected lines and storing total revenue, total hours and the
daily breakdown per project name. `df_tasks` is accepted and unused,
as in the source. -/
def calcAllFinancials (portfolio employees ts tasks : DF) (jobCosts : JobCosts)
    (sd ed : Int) : Except String FinData :=
  let _ := tasks
  match findDateCol ts with
  | none => Except.ok []
  | some dcol =>
      portfolio.rows.foldlM (projectStep portfolio.cols ts dcol employees jobCosts sd ed) []

/-- The end-to-end scenario's portfolio: one project Alpha. -/
def P4 : DF :=
  DF.mk [ "id", "name" ]
    [ [ ("id", Value.atom (Atom.int 1)), ("name", strV "Alpha") ] ]

/-- The end-to-end scenario's employees: Bob the Engineer. -/
def E4 : DF :=
  DF.mk [ "id", "name", "job_title" ]
    [ [ ("id", Value.atom (Atom.int 10)), ("name", strV "Bob"),
        ("job_title", strV "Engineer") ] ]

/-- The end-to-end scenario's job rates. -/
def JC4 : JobCosts := [ (strV "Engineer", JobRate.mk "400" "800") ]

/-- The end-to-end scenario's timesheet exactly as claimed: two lines
for Bob on Alpha, with NO `task_id` field. -/
def TS4 : DF :=
  DF.mk [ "employee_name", "project_name", "unit_amount", "date" ]
    [ [ ("employee_name", strV "Bob"), ("project_name", strV "Alpha"),
        ("unit_amount", Value.atom (Atom.int 8)), ("date", Value.atom (Atom.int 20240101)) ],
      [ ("employee_name", strV "Bob"), ("project_name", strV "Alpha"),
        ("unit_amount", Value.atom (Atom.int 4)), ("date", Value.atom (Atom.int 20240102)) ] ]

/-- The same timesheet extended with a `task_id` column (task 5). -/
def TS4b : DF :=
  DF.mk [ "employee_name", "project_name", "unit_amount", "date", "task_id" ]
    [ [ ("employee_name", strV "Bob"), ("project_name", strV "Alpha"),
        ("unit_amount", Value.atom (Atom.int 8)), ("date", Value.atom (Atom.int 20240101)),
        ("task_id", Value.atom (Atom.int 5)) ],
      [ ("employee_name", strV "Bob"), ("project_name", strV "Alpha"),
        ("unit_amount", Value.atom (Atom.int 4)), ("date", Value.atom (Atom.int 20240102)),
        ("task_id", Value.atom (Atom.int 5)) ] ]

/-- A timesheet where the second line's employee Ghost matches no
employee record. -/
def TS3g : DF :=
  DF.mk [ "employee_name", "project_name", "unit_amount", "date", "task_id" ]
    [ [ ("employee_name", strV "Bob"), ("project_name", strV "Alpha"),
        ("unit_amount", Value.atom (Atom.int 8)), ("date", Value.atom (Atom.int 20240101)),
        ("task_id", Value.atom (Atom.int 5)) ],
      [ ("employee_name", strV "Ghost"), ("project_name", strV "Alpha"),
        ("unit_amount", Value.atom (Atom.int 4)), ("date", Value.atom (Atom.int 20240101)),
        ("task_id", Value.atom (Atom.int 5)) ] ]

/-- A timesheet with data but no column whose name contains `date`. -/
def TS9 : DF :=
  DF.mk [ "employee_name", "project_name", "unit_amount", "task_id", "day" ]
    [ [ ("employee_name", strV "Bob"), ("project_name", strV "Alpha"),
        ("unit_amount", Value.atom (Atom.int 8)), ("task_id", Value.atom (Atom.int 5)),
        ("day", Value.atom (Atom.int 20240101)) ] ]

/-- An empty timesheet that does have a date column: the genuine
"no data" input. -/
def TS9b : DF :=
  DF.mk [ "employee_name", "project_name", "unit_amount", "task_id", "date" ] []

/-- An employee row carrying BOTH a direct job_title and a string-valued
composite job_id. -/
def E7 : Row :=
  [ ("name", strV "Bob"), ("job_id", strV "[1, 'Engineer']"),
    ("job_title", strV "Manager") ]

/-- One persisted `daily_data` entry: its (parsed) date plus its numeric
fields keyed by name (`revenue`, `unit_amount`, ...; the persisted
entries of this repository carry `unit_amount` but no `revenue`). -/
structure CEntry where
  date : Int
  fields : List (String × Q)
deriving DecidableEq

/-- One persisted per-project aggregate. -/
structure CacheProj where
  total_revenue : Q
  total_hours : Q
  daily_data : List CEntry
deriving DecidableEq

/-- The persisted aggregate cache (`financials_data.json`). -/
abbrev CacheData := List (String × CacheProj)

/-- `(start_date is None or date >= start_date) and (end_date is None or
date <= end_date)`. -/
def inRange (sd ed : Option Int) (d : Int) : Bool :=
  (match sd with
   | none => true
   | some s => decide (s ≤ d)) &&
  (match ed with
   | none => true
   | some e => decide (d ≤ e))

/-- `sum(day[k] for day in daily_data if k in day)`. -/
def sumFieldKey (k : String) (es : List CEntry) : Q :=
  (es.filterMap (fun e => e.fields.lookup k)).sum

/-- The in-range daily entries of one project. -/
def filterCacheProj (sd ed : Option Int) (pd : CacheProj) : List CEntry :=
  pd.daily_data.filter (fun e => inRange sd ed e.date)

/-- The per-project filtering step of `load_financials_data`: drop the
project if no daily entry is in range, else keep its in-range entries
(totals still the stored ones at this stage). -/
def filterProjEntry (sd ed : Option Int) (kv : String × CacheProj) :
    Option (String × CacheProj) :=
  if (filterCacheProj sd ed kv.snd).isEmpty then none
  else some (kv.fst, CacheProj.mk kv.snd.total_revenue kv.snd.total_hours
    (filterCacheProj sd ed kv.snd))

/-- The recomputation pass of `load_financials_data`: overwrite both
totals with the sums over the kept daily entries. -/
def recomputeEntry (kv : String × CacheProj) : String × CacheProj :=
  (kv.fst, CacheProj.mk (sumFieldKey "revenue" kv.snd.daily_data)
    (sumFieldKey "unit_amount" kv.snd.daily_data) kv.snd.daily_data)

/-- `DataManager.load_financials_data` (data_management.py lines
176-207): keep, per project, only the in-range daily entries, dropping
projects left with none; if nothing remains, return the full unfiltered
data; otherwise recompute each kept project's totals as the sums of the
`revenue` and `unit_amount` fields over its kept entries. -/
def loadFinancialsData (data : CacheData) (sd ed : Option Int) : CacheData :=
  if (data.filterMap (filterProjEntry sd ed)).isEmpty then data
  else (data.filterMap (filterProjEntry sd ed)).map recomputeEntry

/-- Sample aggregate cache for the C8 witness: one project with one
daily entry inside the range 1..5 and one outside. -/
def D8 : CacheData :=
  [ ("alpha", CacheProj.mk 10 2
      [ CEntry.mk 3 [ ("revenue", 10), ("unit_amount", 2) ],
        CEntry.mk 20 [ ("revenue", 5) ] ]) ]

/-- Python truthiness of a cell value (`if title:`): `None`, `0`, the
empty string and the empty list are falsy. -/
def pyTruthy : Value → Bool
| Value.atom Atom.null => false
| Value.atom (Atom.int i) => ! (i == 0)
| Value.atom (Atom.rat q) => ! (q == 0)
| Value.atom (Atom.str s) => ! (s == "")
| Value.vlist l => ! l.isEmpty

/-- `title in job_costs`. -/
def jcContains (jc : JobCosts) (t : Value) : Bool :=
  jc.any (fun kv => kv.fst == t)

/-- The entry added for a newly observed title:
`job_costs[title] = dict with empty cost and revenue`. -/
def emptyRate : JobRate := JobRate.mk "" ""

/-- The loop `for title in unique_job_titles: if title and title not in
job_costs: job_costs[title] = ...` — Python dict insertion appends. -/
def addTitles (titles : List Value) (jc : JobCosts) : JobCosts :=
  titles.foldl (fun acc t =>
    if pyTruthy t && ! jcContains acc t then acc ++ [(t, emptyRate)] else acc) jc

/-- The per-value decode of the `job_id` branch:
`x[1] if isinstance(x, (list, tuple)) and len(x) > 1 else x`. -/
def decodeJobId (v : Value) : Value :=
  match v with
  | Value.vlist (_ :: b :: _) => Value.atom b
  | v => v

/-- The `unique_job_titles` of `process_job_titles` (data_management.py
lines 45-58): the `job_title` column's values when it exists, else the
decoded `job_id` column's values, else nothing; `.unique()` keeps first
occurrences. -/
def observedTitles (employees : DF) : List Value :=
  if employees.cols.contains "job_title" then
    firstDedup (employees.rows.map (fun r => getCell r "job_title"))
  else if employees.cols.contains "job_id" then
    firstDedup (employees.rows.map (fun r => decodeJobId (getCell r "job_id")))
  else []

/-- `DataManager.process_job_titles`, acting on the job-rate table. -/
def processJobTitles (employees : DF) (jc : JobCosts) : JobCosts :=
  addTitles (observedTitles employees) jc

/-- Counterexample to C10 as stated: an observed EMPTY job title is
falsy, so `if title and title not in job_costs` skips it — the empty
title is observed but never added to the table. -/
def E10 : DF := DF.mk [ "job_title" ] [ [ ("job_title", strV "") ] ]

/-! ## Theorems -/

theorem keepLastBy_countP (key : Row → Value) (v : Value) (l : List Row) :
    (keepLastBy key l).countP (fun r => key r == v)
      = if l.any (fun r => key r == v) then 1 else 0 := by
  induction l with
  | nil => simp [keepLastBy]
  | cons r rest ih =>
      by_cases h : rest.any (fun r2 => key r2 == key r) = true
      · rw [keepLastBy, if_pos h, ih]
        by_cases hv : key r = v
        · have hrest : rest.any (fun r2 => key r2 == v) = true := by
            rcases List.any_eq_true.mp h with ⟨r2, hr2, hb⟩
            refine List.any_eq_true.mpr ⟨r2, hr2, ?_⟩
            rw [beq_iff_eq] at hb ⊢
            rw [hb, hv]
          simp [List.any_cons, hrest]
        · simp [List.any_cons, beq_iff_eq, hv]
      · rw [keepLastBy, if_neg h, List.countP_cons, ih]
        by_cases hv : key r = v
        · have hrest : rest.any (fun r2 => key r2 == v) = false := by
            rw [← hv]
            exact Bool.eq_false_iff.mpr h
          simp [List.any_cons, hrest, beq_iff_eq, hv]
        · simp [List.any_cons, beq_iff_eq, hv]

theorem mem_keepLastBy_cons (key : Row → Value) (a r : Row) (l : List Row)
    (h : r ∈ keepLastBy key l) : r ∈ keepLastBy key (a :: l) := by
  rw [keepLastBy]
  by_cases hc : l.any (fun r2 => key r2 == key a) = true
  · rw [if_pos hc]; exact h
  · rw [if_neg hc]; exact List.mem_cons_of_mem a h

theorem mem_keepLastBy_of_nodup (key : Row → Value) (l : List Row) (r : Row)
    (hnd : (l.map key).Nodup) (hr : r ∈ l) : r ∈ keepLastBy key l := by
  induction l with
  | nil => cases hr
  | cons a t ih =>
      rw [List.map_cons, List.nodup_cons] at hnd
      rcases List.mem_cons.mp hr with rfl | hrt
      · have hnot : t.any (fun r2 => key r2 == key r) = false := by
          refine List.any_eq_false.mpr ?_
          intro x hx hb
          exact hnd.1 (List.mem_map.mpr ⟨x, hx, beq_iff_eq.mp hb⟩)
        rw [keepLastBy, hnot]
        simp
      · exact mem_keepLastBy_cons key a r t (ih hnd.2 hrt)

theorem mem_keepLastBy_append_right (key : Row → Value) (l₁ l₂ : List Row) (r : Row)
    (h : r ∈ keepLastBy key l₂) : r ∈ keepLastBy key (l₁ ++ l₂) := by
  induction l₁ with
  | nil => simpa using h
  | cons a t ih => exact mem_keepLastBy_cons key a r (t ++ l₂) ih

theorem mem_keepLastBy_append_left (key : Row → Value) (l₁ l₂ : List Row) (r : Row)
    (hnd : (l₁.map key).Nodup) (hr : r ∈ l₁)
    (habsent : key r ∉ l₂.map key) : r ∈ keepLastBy key (l₁ ++ l₂) := by
  induction l₁ with
  | nil => cases hr
  | cons a t ih =>
      rw [List.map_cons, List.nodup_cons] at hnd
      rcases List.mem_cons.mp hr with rfl | hrt
      · have hnot : (t ++ l₂).any (fun r2 => key r2 == key r) = false := by
          refine List.any_eq_false.mpr ?_
          intro x hx hb
          rcases List.mem_append.mp hx with hx1 | hx2
          · exact hnd.1 (List.mem_map.mpr ⟨x, hx1, beq_iff_eq.mp hb⟩)
          · exact habsent (List.mem_map.mpr ⟨x, hx2, (beq_iff_eq.mp hb).symm ▸ rfl⟩)
        rw [List.cons_append, keepLastBy, hnot]
        simp
      · exact mem_keepLastBy_cons key a r (t ++ l₂) (ih hnd.2 hrt)

/-- C1. When the old and delta collections both expose a surviving `id`
column and ids are unique within each collection (the Snapshot
invariant), `merge_new_data` yields: every `id` value occurring in old
or delta appears in exactly one merged record; every delta record
survives (so on a conflict the delta's version wins); and every old
record whose `id` does not occur in the delta is retained. Rows are
compared after the merge's own normalization/reindexing pass. -/
theorem merge_lastWriteWins (old new : DF)
    (hid : idBranch old new = true)
    (hndOld : ((prepOld old new).map (fun r => getCell r "id")).Nodup)
    (hndNew : ((prepNew old new).map (fun r => getCell r "id")).Nodup) :
    (∀ v : Value, ((mergeCollection old new).rows.countP (fun r => getCell r "id" == v))
        = if (mergeRowsInput old new).any (fun r => getCell r "id" == v) then 1 else 0)
    ∧ (∀ r ∈ prepNew old new, r ∈ (mergeCollection old new).rows)
    ∧ (∀ r ∈ prepOld old new, (getCell r "id") ∉ (prepNew old new).map (fun r => getCell r "id")
        → r ∈ (mergeCollection old new).rows) := by
  have hrows : (mergeCollection old new).rows
      = keepLastBy (fun r => getCell r "id") (mergeRowsInput old new) := by
    rw [mergeCollection, if_pos hid]
  refine ⟨?_, ?_, ?_⟩
  · intro v
    rw [hrows]
    exact keepLastBy_countP (fun r => getCell r "id") v (mergeRowsInput old new)
  · intro r hr
    rw [hrows, mergeRowsInput]
    exact mem_keepLastBy_append_right _ _ _ r
      (mem_keepLastBy_of_nodup _ _ r hndNew hr)
  · intro r hr habsent
    rw [hrows, mergeRowsInput]
    exact mem_keepLastBy_append_left _ _ _ r hndOld hr habsent

/-- Witness for C1: on the sample frames the conflicting id 2 appears
exactly once after the merge. -/
theorem merge_lastWriteWins_witness :
    (mergeCollection mOld mNew).rows.countP
        (fun r => getCell r "id" == Value.atom (Atom.int 2)) = 1 := by
  have h := (merge_lastWriteWins mOld mNew (by decide) (by decide) (by decide)).1
    (Value.atom (Atom.int 2))
  rw [h]
  decide

/-- C2. With a cached snapshot and a stored last-sync instant, `force`
false and the elapsed time below the one-day staleness threshold,
`load_or_fetch_data` performs no remote fetch, returns the cached
snapshot unchanged with `as_of` the stored instant, leaves the state
untouched — and a second immediate call returns the identical result
with again zero remote fetches. -/
theorem loadOrFetch_fresh_cache_idempotent (f : FetchFn) (st : CacheState) (now : Int)
    (cached : List DF) (lu : Int)
    (hc : st.cachedData = some cached) (hl : st.lastUpdate = some lu)
    (hfresh : now - lu < oneDaySecs) :
    loadOrFetchData f st now false = Except.ok (LoadResult.mk cached lu st 0)
    ∧ loadOrFetchData f (LoadResult.mk cached lu st 0).state now false
        = Except.ok (LoadResult.mk cached lu st 0) := by
  have hnot : ¬ (now - lu > oneDaySecs) := by omega
  obtain ⟨cd, luF⟩ := st
  simp only [CacheState.mk.injEq] at hc hl
  cases hc
  cases hl
  constructor
  · simp [loadOrFetchData, hnot]
  · simp [loadOrFetchData, hnot]

/-- Witness for C2 at a concrete fresh state: both immediate calls
return the cached snapshot with zero fetches. -/
theorem loadOrFetch_fresh_cache_idempotent_witness :
    loadOrFetchData sampleFetch freshState 200 false
        = Except.ok (LoadResult.mk [ emptyDF ] 100 freshState 0)
    ∧ loadOrFetchData sampleFetch (LoadResult.mk [ emptyDF ] 100 freshState 0).state 200 false
        = Except.ok (LoadResult.mk [ emptyDF ] 100 freshState 0) :=
  loadOrFetch_fresh_cache_idempotent sampleFetch freshState 200 [ emptyDF ] 100
    rfl rfl (by decide)

/-- C5 (code bug). Whenever a cached snapshot and last-update instant
exist and `force` is true, the incremental branch calls
`fetch_and_process_data(last_update - timedelta(hours=3))` — but that
function is declared with zero parameters, so the call raises
`TypeError` to the caller: no incremental fetch happens and the
stale-but-available fallback is never reached. -/
theorem loadOrFetch_incremental_typeError (remote : List (Option DF))
    (st : CacheState) (now : Int) (cached : List DF) (lu : Int)
    (hc : st.cachedData = some cached) (hl : st.lastUpdate = some lu) :
    loadOrFetchData (fetchAndProcessData remote) st now true = Except.error "TypeError" := by
  obtain ⟨cd, luF⟩ := st
  simp only [CacheState.mk.injEq] at hc hl
  cases hc
  cases hl
  simp [loadOrFetchData, callFetch, fetchAndProcessData]

/-- Witness for C5: the concrete forced refresh on a populated cache
raises TypeError. -/
theorem loadOrFetch_incremental_typeError_witness :
    loadOrFetchData (fetchAndProcessData (List.replicate 6 none)) freshState 200 true
        = Except.error "TypeError" :=
  loadOrFetch_incremental_typeError (List.replicate 6 none) freshState 200
    [ emptyDF ] 100 rfl rfl

/-- Counterexample to C6 as stated: with no cache and a failed full
fetch, `load_or_fetch_data` returns FIVE empty frames
(`[pd.DataFrame() for _ in range(5)]`, line 151), not the six empty
record collections the claim asserts. -/
theorem loadOrFetch_empty_counterexample :
    loadOrFetchData (fetchAndProcessData (List.replicate 6 none))
        (CacheState.mk none none) 0 false
      = Except.ok (LoadResult.mk (List.replicate 5 emptyDF) 0 (CacheState.mk none none) 1)
    ∧ (List.replicate 5 emptyDF).length ≠ 6 := by
  constructor
  · rfl
  · decide

/-- C6 amended. If no cached snapshot or no last-sync instant exists and
the full fetch fails, `load_or_fetch_data` does not crash: it returns an
empty snapshot of FIVE empty record collections with `as_of` the current
time, leaving the stored state untouched. -/
theorem loadOrFetch_empty_on_failure (remote : List (Option DF)) (st : CacheState)
    (now : Int) (force : Bool)
    (hnc : st.cachedData = none ∨ st.lastUpdate = none)
    (hfail : fetchOk remote = false) :
    loadOrFetchData (fetchAndProcessData remote) st now force
      = Except.ok (LoadResult.mk (List.replicate 5 emptyDF) now st 1) := by
  obtain ⟨cd, lu⟩ := st
  rcases hnc with h | h <;> simp only at h <;> cases h
  · simp [loadOrFetchData, callFetch, fetchAndProcessData, hfail]
  · cases cd <;> simp [loadOrFetchData, callFetch, fetchAndProcessData, hfail]

/-- Witness for C6's amended statement at the concrete failed fetch. -/
theorem loadOrFetch_empty_on_failure_witness :
    loadOrFetchData (fetchAndProcessData (List.replicate 6 none))
        (CacheState.mk none (some 7)) 3 false
      = Except.ok (LoadResult.mk (List.replicate 5 emptyDF) 3 (CacheState.mk none (some 7)) 1) :=
  loadOrFetch_empty_on_failure (List.replicate 6 none) (CacheState.mk none (some 7)) 3 false
    (Or.inl rfl) (by decide)

/-- Counterexample to C4 as stated: on the exact claimed input — whose
timesheet lines carry no `task_id` field — `calculate_all_financials`
raises `KeyError` from the groupby aggregation instead of returning the
claimed mapping for Alpha. -/
theorem calcAll_endToEnd_counterexample :
    calcAllFinancials P4 E4 TS4 emptyDF JC4 20240101 20241231
        = Except.error "KeyError: task_id"
    ∧ ∀ m : FinData,
        calcAllFinancials P4 E4 TS4 emptyDF JC4 20240101 20241231 ≠ Except.ok m := by
  have h0 : calcAllFinancials P4 E4 TS4 emptyDF JC4 20240101 20241231
      = Except.error "KeyError: task_id" := rfl
  exact ⟨h0, fun m h => Except.noConfusion (h0.symm.trans h)⟩

/-- C4 amended. The claimed input lacks the `task_id` column the
aggregation requires, so the computation raises `KeyError`; with each
line extended by a `task_id`, it returns exactly one entry Alpha with
total_revenue 1200, total_hours 12 and two daily records (8 hours on
2024-01-01, 4 hours on 2024-01-02) carrying contributor and task lists
but no per-day revenue field. -/
theorem calcAll_endToEnd :
    calcAllFinancials P4 E4 TS4 emptyDF JC4 20240101 20241231
        = Except.error "KeyError: task_id"
    ∧ calcAllFinancials P4 E4 TS4b emptyDF JC4 20240101 20241231
        = Except.ok
            [ (strV "Alpha", ProjFin.mk 1200 12
                [ DailyRec.mk 20240101 8 [ strV "Bob" ] [ Value.atom (Atom.int 5) ],
                  DailyRec.mk 20240102 4 [ strV "Bob" ] [ Value.atom (Atom.int 5) ] ]) ] :=
  ⟨rfl, rfl⟩

/-- Counterexample to C3 as stated: with Bob's 8-hour line and Ghost's
4-hour line (Ghost matches no employee record), the computation does not
raise and Ghost contributes no revenue — but Alpha's total_hours is 12,
not 8: the unmatched line's hours ARE counted. -/
theorem missingEmployee_counterexample :
    calcAllFinancials P4 E4 TS3g emptyDF JC4 20240101 20241231
        = Except.ok
            [ (strV "Alpha", ProjFin.mk 800 12
                [ DailyRec.mk 20240101 12 [ strV "Bob", strV "Ghost" ]
                  [ Value.atom (Atom.int 5) ] ]) ]
    ∧ (12 : Q) ≠ 8 :=
  ⟨rfl, by decide⟩

/-- Counterexample to C9 as stated: a timesheet with data but no date
column yields `Except.ok []` — exactly the same value as the genuine
no-data input — rather than a distinct schema-missing error. -/
theorem noDateColumn_counterexample :
    calcAllFinancials P4 E4 TS9 emptyDF JC4 0 99999999 = Except.ok []
    ∧ calcAllFinancials P4 E4 TS9b emptyDF JC4 0 99999999 = Except.ok [] :=
  ⟨rfl, rfl⟩

/-- C9 amended. For every timesheet with no date column,
`calculate_all_financials` logs and returns the empty mapping — the same
value as the no-data outcome; no distinct error reaches the caller. -/
theorem noDateColumn_empty (portfolio employees ts tasks : DF) (jc : JobCosts)
    (sd ed : Int) (h : findDateCol ts = none) :
    calcAllFinancials portfolio employees ts tasks jc sd ed = Except.ok [] := by
  simp [calcAllFinancials, h]

/-- Witness for C9's amended statement: the concrete date-less timesheet
produces the empty mapping. -/
theorem noDateColumn_empty_witness :
    calcAllFinancials P4 E4 TS9 emptyDF JC4 0 99999999 = Except.ok [] :=
  noDateColumn_empty P4 E4 TS9 emptyDF JC4 0 99999999 rfl

/-- Counterexample to C7 as stated: with both fields present,
`extract_job_title` returns the job_id's decoded title Engineer, not the
direct job_title Manager the claim gives precedence to. -/
theorem extractJobTitle_counterexample :
    extractJobTitle E7 = Except.ok (strV "Engineer")
    ∧ strV "Engineer" ≠ strV "Manager" :=
  ⟨rfl, by decide⟩

/-- C7 amended. The job title is resolved with the string-valued
`job_id` checked FIRST: a decoded composite of length > 1 yields its
second element, a short composite or a decode failure yields Unknown;
only an employee with no string-valued `job_id` falls back to a direct
`job_title` field, and to Unknown when that is absent too. -/
theorem extractJobTitle_precedence (e : Row) :
    (∀ s a b rest, e.lookup "job_id" = some (Value.atom (Atom.str s))
        → literalEval s = some (Value.vlist (a :: b :: rest))
        → extractJobTitle e = Except.ok (Value.atom b))
    ∧ (∀ s, e.lookup "job_id" = some (Value.atom (Atom.str s))
        → literalEval s = none
        → extractJobTitle e = Except.ok (strV "Unknown"))
    ∧ (∀ s l, e.lookup "job_id" = some (Value.atom (Atom.str s))
        → literalEval s = some (Value.vlist l) → l.length ≤ 1
        → extractJobTitle e = Except.ok (strV "Unknown"))
    ∧ ((∀ s, ¬ e.lookup "job_id" = some (Value.atom (Atom.str s)))
        → ∀ v, e.lookup "job_title" = some v
        → extractJobTitle e = Except.ok v)
    ∧ ((∀ s, ¬ e.lookup "job_id" = some (Value.atom (Atom.str s)))
        → e.lookup "job_title" = none
        → extractJobTitle e = Except.ok (strV "Unknown")) := by
  refine ⟨?_, ?_, ?_, ?_, ?_⟩
  · intro s a b rest h1 h2
    unfold extractJobTitle
    rw [h1]
    show decodeJobIdStr s = _
    unfold decodeJobIdStr
    rw [h2]
  · intro s h1 h2
    unfold extractJobTitle
    rw [h1]
    show decodeJobIdStr s = _
    unfold decodeJobIdStr
    rw [h2]
  · intro s l h1 h2 hlen
    unfold extractJobTitle
    rw [h1]
    show decodeJobIdStr s = _
    unfold decodeJobIdStr
    rw [h2]
    match l, hlen with
    | [], _ => rfl
    | [a], _ => rfl
  · intro hno v h2
    unfold extractJobTitle
    match h1 : e.lookup "job_id" with
    | none => rw [h2]
    | some (Value.atom (Atom.str s)) => exact absurd h1 (hno s)
    | some (Value.atom Atom.null) => rw [h2]
    | some (Value.atom (Atom.int i)) => rw [h2]
    | some (Value.atom (Atom.rat q)) => rw [h2]
    | some (Value.vlist l) => rw [h2]
  · intro hno h2
    unfold extractJobTitle
    match h1 : e.lookup "job_id" with
    | none => rw [h2]
    | some (Value.atom (Atom.str s)) => exact absurd h1 (hno s)
    | some (Value.atom Atom.null) => rw [h2]
    | some (Value.atom (Atom.int i)) => rw [h2]
    | some (Value.atom (Atom.rat q)) => rw [h2]
    | some (Value.vlist l) => rw [h2]

/-- Witness for C7's amended statement: the composite job_id decodes to
Engineer on the concrete employee row. -/
theorem extractJobTitle_precedence_witness :
    extractJobTitle E7 = Except.ok (Value.atom (Atom.str "Engineer")) :=
  (extractJobTitle_precedence E7).1 "[1, 'Engineer']" (Atom.int 1) (Atom.str "Engineer") []
    rfl rfl

theorem except_bind_error {α β : Type} (e : String) (f : α → Except String β) :
    (Except.error e >>= f) = Except.error e := rfl

theorem except_bind_ok {α β : Type} (a : α) (f : α → Except String β) :
    (Except.ok a >>= f) = f a := rfl

theorem revStep_unmatched (emp : DF) (jc : JobCosts) (r : Row) (acc : Q)
    (hm : employeeMatched emp r = false) : revStep emp jc acc r = Except.ok acc := by
  unfold revStep
  have hnil : emp.rows.filter (fun e => getCell e "name" == getCell r "employee_name") = [] := by
    rw [List.filter_eq_nil_iff]
    intro x hx
    rw [employeeMatched] at hm
    exact (List.any_eq_false.mp hm) x hx
  rw [hnil]

theorem revenue_skip_unmatched_aux (emp : DF) (jc : JobCosts) (lines : List Row) :
    ∀ acc : Q, List.foldlM (revStep emp jc) acc lines
      = List.foldlM (revStep emp jc) acc (lines.filter (employeeMatched emp)) := by
  induction lines with
  | nil => intro acc; rfl
  | cons r t ih =>
      intro acc
      by_cases hm : employeeMatched emp r = true
      · rw [List.filter_cons_of_pos hm, List.foldlM_cons, List.foldlM_cons]
        cases hstep : revStep emp jc acc r with
        | error e => rw [except_bind_error, except_bind_error]
        | ok acc2 => rw [except_bind_ok, except_bind_ok, ih]
      · have hm' : employeeMatched emp r = false := Bool.eq_false_iff.mpr hm
        rw [List.filter_cons_of_neg hm, List.foldlM_cons,
          revStep_unmatched emp jc r acc hm', except_bind_ok, ih]

/-- Lines whose employee matches no record are skipped by the revenue
loop: filtering them away changes nothing (in particular they add no
revenue, raise nothing, and the remaining lines are still processed). -/
theorem revenue_skip_unmatched (emp : DF) (jc : JobCosts) (lines : List Row) :
    calculateProjectRevenue lines emp jc
      = calculateProjectRevenue (lines.filter (employeeMatched emp)) emp jc :=
  revenue_skip_unmatched_aux emp jc lines 0

theorem mem_dictInsert (m : FinData) (k : Value) (v : ProjFin) (p : Value) (f : ProjFin)
    (h : (p, f) ∈ dictInsert m k v) : (p = k ∧ f = v) ∨ (p, f) ∈ m := by
  unfold dictInsert at h
  split at h
  · rcases List.mem_map.mp h with ⟨kv, hkv, heq⟩
    by_cases hb : (kv.fst == k) = true
    · rw [if_pos hb] at heq
      left
      have h2 := (Prod.mk.injEq _ _ _ _).mp heq
      exact ⟨h2.1.symm, h2.2.symm⟩
    · rw [if_neg hb] at heq
      right
      rw [← heq]
      exact hkv
  · rcases List.mem_append.mp h with h1 | h1
    · right; exact h1
    · left
      have := List.mem_singleton.mp h1
      exact ⟨((Prod.mk.injEq _ _ _ _).mp this).1, ((Prod.mk.injEq _ _ _ _).mp this).2⟩

theorem projectStep_ok_cases (pcols : List String) (ts : DF) (dcol : String) (emp : DF)
    (jc : JobCosts) (sd ed : Int) (acc : FinData) (proj : Row) (res : FinData)
    (h : projectStep pcols ts dcol emp jc sd ed acc proj = Except.ok res) :
    res = acc
    ∨ ∃ rev, calculateProjectRevenue
          (selectProjectLines ts.rows dcol (getCell proj "name") sd ed) emp jc = Except.ok rev
        ∧ res = dictInsert acc (getCell proj "name")
            (ProjFin.mk rev
              (sumUnits (selectProjectLines ts.rows dcol (getCell proj "name") sd ed))
              (buildDaily (selectProjectLines ts.rows dcol (getCell proj "name") sd ed) dcol)) := by
  simp only [projectStep] at h
  split at h
  · cases h
  · split at h
    · cases h
    · split at h
      · left
        exact (Except.ok.inj h).symm
      · split at h
        · cases h
        · split at h
          · cases h
          · split at h
            · cases h
            · split at h
              · cases h
              · rename_i rev hrev c1 c2 c3
                right
                exact ⟨rev, hrev, (Except.ok.inj h).symm⟩

theorem calcLoop_inv (pcols : List String) (ts : DF) (dcol : String) (emp : DF)
    (jc : JobCosts) (sd ed : Int) (projs : List Row) :
    ∀ (acc res : FinData),
      (∀ pname pf, (pname, pf) ∈ acc →
        calculateProjectRevenue (selectProjectLines ts.rows dcol pname sd ed) emp jc
            = Except.ok pf.total_revenue
        ∧ pf.total_hours = sumUnits (selectProjectLines ts.rows dcol pname sd ed)) →
      List.foldlM (projectStep pcols ts dcol emp jc sd ed) acc projs = Except.ok res →
      ∀ pname pf, (pname, pf) ∈ res →
        calculateProjectRevenue (selectProjectLines ts.rows dcol pname sd ed) emp jc
            = Except.ok pf.total_revenue
        ∧ pf.total_hours = sumUnits (selectProjectLines ts.rows dcol pname sd ed) := by
  induction projs with
  | nil =>
      intro acc res hacc hres
      rw [List.foldlM_nil] at hres
      have : acc = res := Except.ok.inj hres
      exact this ▸ hacc
  | cons p pt ih =>
      intro acc res hacc hres
      rw [List.foldlM_cons] at hres
      cases hstep : projectStep pcols ts dcol emp jc sd ed acc p with
      | error e =>
          rw [hstep, except_bind_error] at hres
          cases hres
      | ok acc2 =>
          rw [hstep, except_bind_ok] at hres
          refine ih acc2 res ?_ hres
          intro pn pf hmem2
          rcases projectStep_ok_cases pcols ts dcol emp jc sd ed acc p acc2 hstep with
            rfl | ⟨rev, hrev, rfl⟩
          · exact hacc pn pf hmem2
          · rcases mem_dictInsert acc _ _ pn pf hmem2 with ⟨rfl, rfl⟩ | hold
            · exact ⟨hrev, rfl⟩
            · exact hacc pn pf hold

theorem calcAll_eq_loop (portfolio employees ts tasks : DF) (jc : JobCosts)
    (sd ed : Int) (dcol : String) (hd : findDateCol ts = some dcol) :
    calcAllFinancials portfolio employees ts tasks jc sd ed
      = portfolio.rows.foldlM (projectStep portfolio.cols ts dcol employees jc sd ed) [] := by
  simp [calcAllFinancials, hd]

/-- C3 amended. A timesheet line whose `employee_name` matches no
employee record does not raise and does not stop the other lines:
filtering unmatched lines out leaves the revenue computation unchanged,
and every project entry's total_revenue comes from that computation.
However the entry's total_hours is the plain `unit_amount` sum over ALL
selected lines, so the unmatched line's hours ARE counted. -/
theorem missingEmployee_excluded (portfolio employees ts tasks : DF) (jc : JobCosts)
    (sd ed : Int) (dcol : String) (res : FinData) (pname : Value) (pf : ProjFin)
    (hd : findDateCol ts = some dcol)
    (hres : calcAllFinancials portfolio employees ts tasks jc sd ed = Except.ok res)
    (hmem : (pname, pf) ∈ res) :
    calculateProjectRevenue (selectProjectLines ts.rows dcol pname sd ed) employees jc
      = calculateProjectRevenue
          ((selectProjectLines ts.rows dcol pname sd ed).filter (employeeMatched employees))
          employees jc
    ∧ calculateProjectRevenue (selectProjectLines ts.rows dcol pname sd ed) employees jc
      = Except.ok pf.total_revenue
    ∧ pf.total_hours = sumUnits (selectProjectLines ts.rows dcol pname sd ed) := by
  rw [calcAll_eq_loop portfolio employees ts tasks jc sd ed dcol hd] at hres
  have hinv := calcLoop_inv portfolio.cols ts dcol employees jc sd ed portfolio.rows
    [] res (by intro pn pf h; cases h) hres pname pf hmem
  exact ⟨revenue_skip_unmatched employees jc _, hinv.1, hinv.2⟩

/-- Witness for C3's amended statement on the Bob/Ghost scenario: the
Alpha entry's 12 total hours are the raw sum over both lines, Ghost's
included. -/
theorem missingEmployee_excluded_witness :
    (ProjFin.mk 800 12
        [ DailyRec.mk 20240101 12 [ strV "Bob", strV "Ghost" ]
          [ Value.atom (Atom.int 5) ] ]).total_hours
      = sumUnits (selectProjectLines TS3g.rows "date" (strV "Alpha") 20240101 20241231) :=
  (missingEmployee_excluded P4 E4 TS3g emptyDF JC4 20240101 20241231 "date"
    [ (strV "Alpha", ProjFin.mk 800 12
        [ DailyRec.mk 20240101 12 [ strV "Bob", strV "Ghost" ]
          [ Value.atom (Atom.int 5) ] ]) ]
    (strV "Alpha")
    (ProjFin.mk 800 12
      [ DailyRec.mk 20240101 12 [ strV "Bob", strV "Ghost" ]
        [ Value.atom (Atom.int 5) ] ])
    rfl rfl (List.mem_singleton.mpr rfl)).2.2

theorem filterProjEntry_eq_none (sd ed : Option Int) (kv : String × CacheProj)
    (h : filterCacheProj sd ed kv.snd = []) : filterProjEntry sd ed kv = none := by
  simp [filterProjEntry, h]

theorem filterProjEntry_eq_some (sd ed : Option Int) (kv : String × CacheProj)
    (h : filterCacheProj sd ed kv.snd ≠ []) :
    filterProjEntry sd ed kv
      = some (kv.fst, CacheProj.mk kv.snd.total_revenue kv.snd.total_hours
          (filterCacheProj sd ed kv.snd)) := by
  cases hF : filterCacheProj sd ed kv.snd with
  | nil => exact absurd hF h
  | cons a t => simp [filterProjEntry, hF]

/-- C8. Loading the aggregate cache with a date range returns, for each
project with at least one in-range daily entry, exactly its in-range
entries with both totals recomputed as sums over those entries; projects
with none are dropped — and when no project has any in-range entry, the
full unfiltered cache is returned instead of an empty mapping. -/
theorem loadFinancials_filter_fallback (data : CacheData) (sd ed : Option Int) :
    ((∀ kv ∈ data, filterCacheProj sd ed kv.snd = []) →
        loadFinancialsData data sd ed = data)
    ∧ ((∃ kv ∈ data, filterCacheProj sd ed kv.snd ≠ []) →
        (∀ p pdR, (p, pdR) ∈ loadFinancialsData data sd ed →
            ∃ pd, (p, pd) ∈ data ∧ pdR.daily_data = filterCacheProj sd ed pd
              ∧ pdR.daily_data ≠ []
              ∧ pdR.total_revenue = sumFieldKey "revenue" pdR.daily_data
              ∧ pdR.total_hours = sumFieldKey "unit_amount" pdR.daily_data)
        ∧ (∀ p pd, (p, pd) ∈ data → filterCacheProj sd ed pd ≠ [] →
            ∃ pdR, (p, pdR) ∈ loadFinancialsData data sd ed
              ∧ pdR.daily_data = filterCacheProj sd ed pd)) := by
  constructor
  · intro h
    have hnil : data.filterMap (filterProjEntry sd ed) = [] :=
      List.filterMap_eq_nil_iff.mpr (fun kv hkv => filterProjEntry_eq_none sd ed kv (h kv hkv))
    simp [loadFinancialsData, hnil]
  · intro hex
    obtain ⟨kv0, hkv0, hne0⟩ := hex
    have hfne : data.filterMap (filterProjEntry sd ed) ≠ [] := by
      intro hnil
      have h0 := List.filterMap_eq_nil_iff.mp hnil kv0 hkv0
      rw [filterProjEntry_eq_some sd ed kv0 hne0] at h0
      cases h0
    have hres : loadFinancialsData data sd ed
        = (data.filterMap (filterProjEntry sd ed)).map recomputeEntry := by
      unfold loadFinancialsData
      rw [if_neg]
      intro hE
      exact hfne (List.isEmpty_iff.mp hE)
    constructor
    · intro p pdR hmem
      rw [hres] at hmem
      obtain ⟨kv', hkv', hg⟩ := List.mem_map.mp hmem
      obtain ⟨kv, hkv, hf⟩ := List.mem_filterMap.mp hkv'
      by_cases hc : filterCacheProj sd ed kv.snd = []
      · rw [filterProjEntry_eq_none sd ed kv hc] at hf
        cases hf
      · rw [filterProjEntry_eq_some sd ed kv hc] at hf
        have hkv'' : kv' = (kv.fst, CacheProj.mk kv.snd.total_revenue kv.snd.total_hours
            (filterCacheProj sd ed kv.snd)) := (Option.some.inj hf).symm
        subst hkv''
        unfold recomputeEntry at hg
        have hp : kv.fst = p := ((Prod.mk.injEq _ _ _ _).mp hg).1
        have hpd := ((Prod.mk.injEq _ _ _ _).mp hg).2
        refine ⟨kv.snd, ?_, ?_, ?_, ?_, ?_⟩
        · rw [← hp, Prod.mk.eta]
          exact hkv
        · rw [← hpd]
        · rw [← hpd]
          exact hc
        · rw [← hpd]
        · rw [← hpd]
    · intro p pd hkvmem hfne2
      refine ⟨CacheProj.mk (sumFieldKey "revenue" (filterCacheProj sd ed pd))
        (sumFieldKey "unit_amount" (filterCacheProj sd ed pd)) (filterCacheProj sd ed pd),
        ?_, rfl⟩
      rw [hres]
      refine List.mem_map.mpr
        ⟨(p, CacheProj.mk pd.total_revenue pd.total_hours (filterCacheProj sd ed pd)),
          ?_, rfl⟩
      exact List.mem_filterMap.mpr
        ⟨(p, pd), hkvmem, filterProjEntry_eq_some sd ed (p, pd) hfne2⟩

/-- Witness for C8: filtering the sample cache to 1..5 keeps alpha with
exactly its in-range entry. -/
theorem loadFinancials_filter_fallback_witness :
    ∃ pdR, ("alpha", pdR) ∈ loadFinancialsData D8 (some 1) (some 5)
      ∧ pdR.daily_data
          = filterCacheProj (some 1) (some 5)
              (CacheProj.mk 10 2
                [ CEntry.mk 3 [ ("revenue", 10), ("unit_amount", 2) ],
                  CEntry.mk 20 [ ("revenue", 5) ] ]) :=
  ((loadFinancials_filter_fallback D8 (some 1) (some 5)).2
      ⟨("alpha", CacheProj.mk 10 2
          [ CEntry.mk 3 [ ("revenue", 10), ("unit_amount", 2) ],
            CEntry.mk 20 [ ("revenue", 5) ] ]),
        List.mem_singleton.mpr rfl, by decide⟩).2
    "alpha"
    (CacheProj.mk 10 2
      [ CEntry.mk 3 [ ("revenue", 10), ("unit_amount", 2) ],
        CEntry.mk 20 [ ("revenue", 5) ] ])
    (List.mem_singleton.mpr rfl) (by decide)

theorem firstDedupAux_not_mem_seen (l : List Value) :
    ∀ seen v, v ∈ firstDedupAux seen l → v ∉ seen := by
  induction l with
  | nil => intro seen v h; cases h
  | cons a t ih =>
      intro seen v h
      rw [firstDedupAux] at h
      split at h
      · exact ih seen v h
      · rename_i hns
        rcases List.mem_cons.mp h with rfl | h2
        · exact hns
        · intro hv
          exact (ih (a :: seen) v h2) (List.mem_cons_of_mem a hv)

theorem firstDedupAux_nodup (l : List Value) :
    ∀ seen, (firstDedupAux seen l).Nodup := by
  induction l with
  | nil => intro seen; exact List.nodup_nil
  | cons a t ih =>
      intro seen
      rw [firstDedupAux]
      split
      · exact ih seen
      · refine List.nodup_cons.mpr ⟨?_, ih (a :: seen)⟩
        intro hmem
        exact (firstDedupAux_not_mem_seen t (a :: seen) a hmem) (List.mem_cons_self a seen)

theorem firstDedup_nodup (l : List Value) : (firstDedup l).Nodup :=
  firstDedupAux_nodup l []

theorem observedTitles_nodup (employees : DF) : (observedTitles employees).Nodup := by
  rw [observedTitles]
  split
  · exact firstDedup_nodup _
  · split
    · exact firstDedup_nodup _
    · exact List.nodup_nil

theorem jcContains_append_single (jc : JobCosts) (t u : Value) (r : JobRate) :
    jcContains (jc ++ [(t, r)]) u = (jcContains jc u || (t == u)) := by
  simp [jcContains, List.any_append]

theorem filter_cons_pos {α : Type} (p : α → Bool) (a : α) (l : List α) (h : p a = true) :
    (a :: l).filter p = a :: l.filter p := by
  rw [List.filter_cons, if_pos h]

theorem filter_cons_neg {α : Type} (p : α → Bool) (a : α) (l : List α) (h : ¬ p a = true) :
    (a :: l).filter p = l.filter p := by
  rw [List.filter_cons, if_neg h]

theorem addTitles_closed (titles : List Value) (hnd : titles.Nodup) :
    ∀ jc : JobCosts,
      addTitles titles jc
        = jc ++ (titles.filter (fun t => pyTruthy t && ! jcContains jc t)).map
            (fun t => (t, emptyRate)) := by
  induction titles with
  | nil => intro jc; simp [addTitles]
  | cons t ts ih =>
      intro jc
      rw [List.nodup_cons] at hnd
      have hstep : addTitles (t :: ts) jc
          = addTitles ts (if pyTruthy t && ! jcContains jc t
              then jc ++ [(t, emptyRate)] else jc) := by
        rw [addTitles, List.foldl_cons]
        rfl
      by_cases hp : (pyTruthy t && ! jcContains jc t) = true
      · rw [hstep, if_pos hp, ih hnd.2]
        have hfeq : ts.filter (fun u => pyTruthy u && ! jcContains (jc ++ [(t, emptyRate)]) u)
            = ts.filter (fun u => pyTruthy u && ! jcContains jc u) := by
          apply List.filter_congr
          intro u hu
          have hne : (t == u) = false := by
            rw [beq_eq_false_iff_ne]
            intro heq
            exact hnd.1 (heq ▸ hu)
          rw [jcContains_append_single, hne, Bool.or_false]
        rw [hfeq, filter_cons_pos (fun u => pyTruthy u && ! jcContains jc u) t ts hp,
          List.map_cons, List.append_assoc, List.singleton_append]
      · rw [hstep, if_neg hp, ih hnd.2,
          filter_cons_neg (fun u => pyTruthy u && ! jcContains jc u) t ts hp]

/-- The empty title is observed yet the table stays empty, so not every
observed-but-absent title is added. -/
theorem processJobTitles_counterexample :
    observedTitles E10 = [ strV "" ] ∧ processJobTitles E10 [] = [] :=
  ⟨rfl, rfl⟩

/-- C10 amended. `process_job_titles` is purely additive: the table is
returned with its entries preserved verbatim (nothing removed, no cost
or revenue overwritten), followed by exactly one `(title, empty rates)`
entry for each observed TRUTHY job title not already present; falsy
titles (empty string, null, zero) are skipped. -/
theorem processJobTitles_additive (employees : DF) (jc : JobCosts) :
    processJobTitles employees jc
      = jc ++ ((observedTitles employees).filter
            (fun t => pyTruthy t && ! jcContains jc t)).map (fun t => (t, emptyRate)) :=
  addTitles_closed (observedTitles employees) (observedTitles_nodup employees) jc

end ZDash
